import Mathlib

/-!
Shallow embedding of the DiscordFix dispatch core, translated from
`src/shared/rate_limiter.py`, `src/shared/member_assignment.py`,
`src/controller/campaign_controller.py` and `src/worker/bot_worker.py`.

Time is modelled with rationals (`time.time()` values), machine state is
passed explicitly, and every sequential code path becomes a total Lean
function.  Sleeping advances an explicit clock; the amount slept is
returned so that theorems can speak about which calls block.
-/

/-! ### `rate_limiter.py` - `RateLimitBucket` (lines 17-71) -/

/-- Mirror of the `RateLimitBucket` dataclass: `remaining`, `limit`,
`reset_after`, `reset_timestamp` and the optional `retry_after`. -/
structure RateLimitBucket where
  remaining : Int := 0
  limit : Int := 1
  reset_after : ℚ := 0
  reset_timestamp : ℚ := 0
  retry_after : Option ℚ := none
deriving Repr, DecidableEq

/-- Python truthiness of `self.retry_after` combined with the comparison
`current_time < self.retry_after`: a stored `0.0` is falsy, `None` is falsy. -/
def retryActive (b : RateLimitBucket) (now : ℚ) : Bool :=
  match b.retry_after with
  | some r => decide (r ≠ 0) && decide (now < r)
  | none => false

/-- `RateLimitBucket.is_rate_limited` (lines 26-38). -/
def is_rate_limited (b : RateLimitBucket) (now : ℚ) : Bool :=
  if retryActive b now then true
  else if decide (b.remaining ≤ 0) && decide (now < b.reset_timestamp) then true
  else false

/-- `RateLimitBucket.time_until_reset` (lines 40-50). -/
def time_until_reset (b : RateLimitBucket) (now : ℚ) : ℚ :=
  if retryActive b now then (b.retry_after.getD 0) - now
  else if now < b.reset_timestamp then b.reset_timestamp - now
  else 0

/-! ### `rate_limiter.py` - `DiscordRateLimiter.acquire` (lines 104-145)

One bucket and the limiter's `global_rate_limit` field; the per-bucket
lock only serializes callers, and the calls modelled are sequential. -/

/-- The bucket reset performed after the rate-limit sleep (lines 138-139):
`bucket.remaining = bucket.limit; bucket.retry_after = None`. -/
def bucketAfterWait (b : RateLimitBucket) : RateLimitBucket :=
  { b with remaining := b.limit, retry_after := none }

/-- Python truthiness of `self.global_rate_limit` combined with
`time.time() < self.global_rate_limit`. -/
def globalActive (g : Option ℚ) (now : ℚ) : Bool :=
  match g with
  | some x => decide (x ≠ 0) && decide (now < x)
  | none => false

/-- Result of one `DiscordRateLimiter.acquire` call: total time slept,
the limiter state afterwards, and the returned boolean. -/
structure AcquireResult where
  waited : ℚ
  glob : Option ℚ
  bucket : RateLimitBucket
  ok : Bool
deriving Repr, DecidableEq

/-- `DiscordRateLimiter.acquire` (lines 104-145) for one bucket:
sleep out an active global cooldown and clear it; if the bucket is
rate limited, sleep `time_until_reset`, reset `remaining` to `limit`
and clear `retry_after`; finally decrement `remaining` (floored at 0)
and return `True`. -/
def acquire (g : Option ℚ) (b : RateLimitBucket) (now : ℚ) : AcquireResult :=
  let w1 : ℚ := if globalActive g now then (g.getD 0) - now else 0
  let g1 : Option ℚ := if globalActive g now then none else g
  let now1 : ℚ := now + w1
  let w2 : ℚ := if is_rate_limited b now1 then time_until_reset b now1 else 0
  let b1 : RateLimitBucket := if is_rate_limited b now1 then bucketAfterWait b else b
  let b2 : RateLimitBucket :=
    if 0 < b1.remaining then { b1 with remaining := b1.remaining - 1 } else b1
  { waited := w1 + w2, glob := g1, bucket := b2, ok := true }

/-- `n` consecutive `acquire` calls; each call starts at the clock value
the previous call finished at, and the total slept time is accumulated. -/
def acquireRun : Nat → Option ℚ → RateLimitBucket → ℚ → ℚ →
    Option ℚ × RateLimitBucket × ℚ × ℚ
  | 0, g, b, now, acc => (g, b, now, acc)
  | n + 1, g, b, now, acc =>
    let r := acquire g b now
    acquireRun n r.glob r.bucket (now + r.waited) (acc + r.waited)

/-! ### `rate_limiter.py` - `CampaignRateLimiter` (lines 185-220) -/

/-- The pruning step of `CampaignRateLimiter.acquire` (lines 199-200):
keep timestamps strictly newer than `current_time - 60.0`. -/
def pruneTimes (times : List ℚ) (now : ℚ) : List ℚ :=
  times.filter (fun t => decide (now - 60 < t))

/-- Outcome of one `CampaignRateLimiter.acquire` call.  `deadlock` is the
branch at lines 208-211: the coroutine sleeps and then re-enters
`self.acquire()` while still holding `self.lock`; `asyncio.Lock` is not
reentrant and is released only when the outer `async with` block exits,
so the inner `await self.lock.acquire()` waits forever and the call never
returns.  `err` is the `ValueError` of `min([])`, reachable only with
`messages_per_minute = 0` and an empty window. -/
inductive PacerOutcome where
  | ok (newTimes : List ℚ)
  | deadlock (pruned : List ℚ)
  | err
deriving Repr, DecidableEq

/-- `CampaignRateLimiter.acquire` (lines 193-215): prune the window; if
`len(message_times) >= messages_per_minute`, compute
`wait = 60 - (now - min(message_times))`; a positive wait sleeps and then
re-acquires the held non-reentrant lock (`deadlock`); otherwise the call
appends `now` and returns `True`. -/
def campaignAcquire (messages_per_minute : Nat) (times : List ℚ) (now : ℚ) :
    PacerOutcome :=
  let pruned := pruneTimes times now
  if messages_per_minute ≤ pruned.length then
    match pruned.min? with
    | none => .err
    | some oldest =>
      if 0 < 60 - (now - oldest) then .deadlock pruned
      else .ok (pruned ++ [now])
  else .ok (pruned ++ [now])

/-- Outcome of issuing a fixed number of sequential `acquire` calls:
either every call returned (with the final recorded timestamps), or the
call with the given 0-based index never returned. -/
inductive PacerRun where
  | allOk (times : List ℚ)
  | stuckAt (i : Nat)
deriving Repr, DecidableEq

/-- Issue `n` sequential `CampaignRateLimiter.acquire` calls, all at clock
value `now`, starting from recorded timestamps `ts`; `i` is the index of
the next call. -/
def campaignRunAux (mpm : Nat) (now : ℚ) : Nat → List ℚ → Nat → PacerRun
  | 0, ts, _ => .allOk ts
  | n + 1, ts, i =>
    match campaignAcquire mpm ts now with
    | .ok ts2 => campaignRunAux mpm now n ts2 (i + 1)
    | _ => .stuckAt i

/-! ### `member_assignment.py` - `MemberAssignmentManager` (lines 23-151)

The `member_bot_assignments` collection is a list of rows in insertion
order; `find_one` returns the first matching row, `insert_one` appends.
Timestamps are abstract `Nat` clock values. -/

/-- One element of the `available_bots` argument; the code reads only the
field `bot['bot_id']`. -/
structure BotInfo where
  bot_id : String
deriving Repr, DecidableEq

/-- One document of the `member_bot_assignments` collection, mirroring the
fields of `MemberBotAssignment` that the assignment code reads or writes. -/
structure AssignmentRow where
  guild_id : String
  user_id : String
  assigned_bot_id : String
  fallback_bot_ids : List String
  is_active : Bool
  total_dms_sent : Nat
  assignment_reason : String
  last_dm_at : Nat
  updated_at : Nat
deriving Repr, DecidableEq

/-- The ids of the available bots, in list order. -/
def botIds (bots : List BotInfo) : List String :=
  bots.map BotInfo.bot_id

/-- `find_one({'guild_id': g, 'user_id': u, 'is_active': True})`:
first matching row in collection order. -/
def findFirstActive (g u : String) : List AssignmentRow → Option AssignmentRow
  | [] => none
  | r :: rs =>
    if r.guild_id = g ∧ r.user_id = u ∧ r.is_active then some r
    else findFirstActive g u rs

/-- `update_one` on the row found by `findFirstActive` (the code filters
by that row's `_id`): apply `f` to the first active row for `(g, u)`. -/
def update_one_active (g u : String) (f : AssignmentRow → AssignmentRow) :
    List AssignmentRow → List AssignmentRow
  | [] => []
  | r :: rs =>
    if r.guild_id = g ∧ r.user_id = u ∧ r.is_active then f r :: rs
    else r :: update_one_active g u f rs

/-- `update_many({'guild_id': g, 'user_id': u}, {'$set': {'is_active': False}})`
(lines 137-140): deactivate every row of the pair. -/
def deactivateAll (g u : String) (t : List AssignmentRow) : List AssignmentRow :=
  t.map (fun r =>
    if r.guild_id = g ∧ r.user_id = u then { r with is_active := false } else r)

/-- `count_documents({'guild_id': g, 'assigned_bot_id': b, 'is_active': True})`
(lines 108-112). -/
def countActiveBot (t : List AssignmentRow) (g b : String) : Nat :=
  (t.filter (fun r =>
    decide (r.guild_id = g) && decide (r.assigned_bot_id = b) && r.is_active)).length

/-- Python `min(available_bots, key=...)`: first element attaining the
minimal key, via a left fold that replaces the candidate only on a
strictly smaller key. -/
def minByCount (cnt : String → Nat) : List BotInfo → Option BotInfo
  | [] => none
  | b :: bs =>
    some (bs.foldl (fun m x => if cnt x.bot_id < cnt m.bot_id then x else m) b)

/-- `MemberAssignmentManager._create_new_assignment` (lines 95-151).
`shuffle` stands for `random.shuffle` (an arbitrary reordering supplied
by the caller of the model), `failCreate` injects an exception inside the
method's `try` block (its handler returns `random.choice(available_bots)`,
modelled by the index `k % len`), and the empty-list early return happens
before either. -/
def create_new_assignment (failCreate : Bool) (k now : Nat) (g u : String)
    (bots : List BotInfo) (shuffle : List String → List String)
    (t : List AssignmentRow) : Option String × List AssignmentRow :=
  if bots.isEmpty then (none, t)
  else if failCreate then ((bots.get? (k % bots.length)).map BotInfo.bot_id, t)
  else
    match minByCount (countActiveBot t g) bots with
    | none => (none, t)
    | some sel =>
      let selId := sel.bot_id
      let fallbacks := (shuffle ((botIds bots).filter (fun b => b ≠ selId))).take 3
      let newRow : AssignmentRow :=
        { guild_id := g, user_id := u, assigned_bot_id := selId,
          fallback_bot_ids := fallbacks, is_active := true, total_dms_sent := 1,
          assignment_reason := "new_assignment", last_dm_at := now, updated_at := now }
      (some selId, deactivateAll g u t ++ [newRow])

/-- `MemberAssignmentManager.get_or_create_assignment` (lines 23-93).
`failMain` injects an exception inside the outer `try` (its handler
returns `available_bots[0]` when non-empty, else `None`, without further
mutation); otherwise: return the active row's primary bot when it is
still available (refreshing `last_dm_at`); else the first stored fallback
present in `available_bots`, persisted as the new primary with
`total_dms_sent` incremented; else defer to `_create_new_assignment`. -/
def get_or_create_assignment (failMain failCreate : Bool) (k now : Nat)
    (g u : String) (bots : List BotInfo) (shuffle : List String → List String)
    (t : List AssignmentRow) : Option String × List AssignmentRow :=
  if failMain then (bots.head?.map BotInfo.bot_id, t)
  else
    match findFirstActive g u t with
    | some row =>
      if (botIds bots).contains row.assigned_bot_id then
        (some row.assigned_bot_id,
          update_one_active g u
            (fun r => { r with last_dm_at := now, updated_at := now }) t)
      else
        match row.fallback_bot_ids.find? (fun fb => (botIds bots).contains fb) with
        | some fb =>
          (some fb,
            update_one_active g u
              (fun r =>
                { r with assigned_bot_id := fb, last_dm_at := now,
                         updated_at := now, assignment_reason := "fallback_used",
                         total_dms_sent := r.total_dms_sent + 1 }) t)
        | none => create_new_assignment failCreate k now g u bots shuffle t
    | none => create_new_assignment failCreate k now g u bots shuffle t

/-- `MemberAssignmentManager.reassign_bot_members` (lines 274-299):
`update_many` over the active rows of the guild assigned to `oldBot`,
setting `assigned_bot_id` to `newBot`; returns the modified count. -/
def reassign_bot_members (now : Nat) (oldBot newBot g : String)
    (t : List AssignmentRow) : List AssignmentRow × Nat :=
  (t.map (fun r =>
      if r.guild_id = g ∧ r.assigned_bot_id = oldBot ∧ r.is_active then
        { r with assigned_bot_id := newBot,
                 assignment_reason := "bot_failure_reassignment", updated_at := now }
      else r),
   (t.filter (fun r =>
      decide (r.guild_id = g) && decide (r.assigned_bot_id = oldBot) && r.is_active)).length)

/-- One operation against the assignment collection, including the
failure-injected variants and the transient state in which a
supersession has deactivated the old rows but not yet inserted the new
one (an exception between lines 137 and 143). -/
inductive AssignOp where
  | getOrCreate (failMain failCreate : Bool) (k now : Nat) (g u : String)
      (bots : List BotInfo) (shuffle : List String → List String)
  | reassign (now : Nat) (oldBot newBot g : String)
  | deactivateOnly (g u : String)

/-- Apply one operation to the collection. -/
def applyOp : AssignOp → List AssignmentRow → List AssignmentRow
  | .getOrCreate fm fc k now g u bots shuffle, t =>
    (get_or_create_assignment fm fc k now g u bots shuffle t).2
  | .reassign now oldBot newBot g, t => (reassign_bot_members now oldBot newBot g t).1
  | .deactivateOnly g u, t => deactivateAll g u t

/-- Apply a sequence of operations, oldest first. -/
def applyOps (ops : List AssignOp) (t : List AssignmentRow) : List AssignmentRow :=
  ops.foldl (fun acc op => applyOp op acc) t

/-- Number of rows of the pair `(g, u)` with `is_active = true`. -/
def activeCount (t : List AssignmentRow) (g u : String) : Nat :=
  (t.filter (fun r =>
    decide (r.guild_id = g) && decide (r.user_id = u) && r.is_active)).length

/-! ### `campaign_controller.py` - campaign lifecycle (lines 143-283, 453-529)

The `campaigns` collection is reduced to the one campaign addressed by
id: `Option CampaignStatus` is `none` when `find_one`/`update_one`
matches no document.  Each operation returns the new stored status and
the boolean `success` field of its result dict. -/

/-- `CampaignStatus` enum of `db/mongodb_schema.py`. -/
inductive CampaignStatus where
  | pending
  | running
  | paused
  | completed
  | cancelled
deriving Repr, DecidableEq

/-- `CampaignController.start_campaign` (lines 143-201): not-found fails;
a status other than `pending` fails without updating; otherwise the
status is set to `running`. -/
def start_campaign : Option CampaignStatus → Option CampaignStatus × Bool
  | none => (none, false)
  | some st =>
    if st = .pending then (some .running, true) else (some st, false)

/-- `CampaignController.pause_campaign` (lines 203-242): conditional
`update_one({'_id': id, 'status': 'running'})`; `matched_count = 0`
(not found or not running) fails without updating. -/
def pause_campaign : Option CampaignStatus → Option CampaignStatus × Bool
  | none => (none, false)
  | some st =>
    if st = .running then (some .paused, true) else (some st, false)

/-- `CampaignController.cancel_campaign` (lines 244-283): the update
filter is `{'_id': id}` alone, with no status condition, so any found
campaign is set to `cancelled`; only a missing campaign fails. -/
def cancel_campaign : Option CampaignStatus → Option CampaignStatus × Bool
  | none => (none, false)
  | some _ => (some .cancelled, true)

/-- `CampaignController._execute_campaign` in `paced` mode
(lines 453-529) projected onto the stored status and the pending-target
loop.  `numTargets` is the number of pending targets; `cancelAt = some i`
means the execution task is cancelled while sleeping after the `i`-th
dispatch, so `asyncio.CancelledError` is raised at that `await`, caught
by the inner `except asyncio.CancelledError: break` (lines 501-502), and
the loop exits early.  In every found-campaign case the function then
runs the unconditional `update_one({'_id': id}, {'$set': {'status':
'completed', ...}})` at lines 507-516.  Returns the stored status and
the number of targets dispatched. -/
def execute_campaign_paced (numTargets : Nat) (cancelAt : Option Nat) :
    Option CampaignStatus → Option CampaignStatus × Nat
  | none => (none, 0)
  | some _ =>
    let processed :=
      match cancelAt with
      | none => numTargets
      | some i => min (i + 1) numTargets
    (some .completed, processed)

/-! ### `bot_worker.py` / `campaign_controller.py` - delivery vs. target
status (worker lines 118-211, controller lines 531-560)

A small system state records the worker queue, the append-only `sends`
collection, the one campaign target under discussion, and the number of
delivery attempts actually made through the Discord client. -/

/-- `TargetStatus` enum of `db/mongodb_schema.py`. -/
inductive TargetStatus where
  | pending
  | sent
  | failed
  | skipped
deriving Repr, DecidableEq

/-- `SendStatus` enum of `db/mongodb_schema.py`. -/
inductive SendStatus where
  | success
  | failed
  | rate_limited
deriving Repr, DecidableEq

/-- One document of the `sends` collection (`_record_send`,
worker lines 226-243). -/
structure SendRecord where
  campaign_id : String
  user_id : String
  bot_id : String
  status : SendStatus
  error_code : Option String
deriving Repr, DecidableEq

/-- Outcome of the external Discord send call inside
`DiscordBotWorker.send_dm`. -/
inductive DeliveryResult where
  | delivered
  | forbidden
  | rateLimited429
  | httpError (code : String)
  | exception (msg : String)
deriving Repr, DecidableEq

/-- State shared between the controller and one worker, projected onto
one campaign target. -/
structure DispatchState where
  queue : List String
  sends : List SendRecord
  target : TargetStatus
  deliveryAttempts : Nat
deriving Repr, DecidableEq

/-- `DiscordBotWorker.send_dm` (lines 118-211), with the external call's
outcome supplied as `d`: every branch appends a `Send` record with the
matching status, and none touches the `campaign_targets` collection (the
worker never updates the target row).  Returns the `success` field of
the result dict and the new state. -/
def send_dm (bot camp user : String) (d : DeliveryResult) (s : DispatchState) :
    Bool × DispatchState :=
  match d with
  | .delivered =>
    (true, { s with
      sends := s.sends ++ [⟨camp, user, bot, .success, none⟩],
      deliveryAttempts := s.deliveryAttempts + 1 })
  | .forbidden =>
    (false, { s with
      sends := s.sends ++ [⟨camp, user, bot, .failed, some "forbidden"⟩],
      deliveryAttempts := s.deliveryAttempts + 1 })
  | .rateLimited429 =>
    (false, { s with
      sends := s.sends ++ [⟨camp, user, bot, .rate_limited, some "429"⟩],
      deliveryAttempts := s.deliveryAttempts + 1 })
  | .httpError c =>
    (false, { s with
      sends := s.sends ++ [⟨camp, user, bot, .failed, some c⟩],
      deliveryAttempts := s.deliveryAttempts + 1 })
  | .exception _ =>
    (false, { s with
      sends := s.sends ++ [⟨camp, user, bot, .failed, some "exception"⟩],
      deliveryAttempts := s.deliveryAttempts + 1 })

/-- `CampaignController._send_campaign_message` (lines 531-560): when the
assigned bot worker exists, `queue_message` puts the message on the
worker queue and the target row is immediately set to `sent`
(lines 546-551) - before the worker makes any delivery attempt; when the
worker is missing, the raised exception sets the target to `failed`. -/
def send_campaign_message (workerPresent : Bool) (user : String)
    (s : DispatchState) : DispatchState :=
  if workerPresent then
    { s with queue := s.queue ++ [user], target := .sent }
  else
    { s with target := .failed }

/-! ## Claim theorems -/

/-- Pruning at the window start keeps every timestamp equal to the
current instant. -/
lemma prune_replicate (m : Nat) :
    pruneTimes (List.replicate m (0 : ℚ)) 0 = List.replicate m 0 := by
  unfold pruneTimes
  rw [List.filter_eq_self]
  intro a ha
  rw [List.eq_of_mem_replicate ha]
  exact decide_eq_true (by norm_num)

lemma foldl_min_zero (m : Nat) :
    List.foldl min (0 : ℚ) (List.replicate m 0) = 0 := by
  induction m with
  | zero => rfl
  | succ k ih => rw [List.replicate_succ, List.foldl_cons, min_self]; exact ih

lemma min_replicate_zero (m : Nat) :
    (List.replicate (m + 1) (0 : ℚ)).min? = some 0 := by
  rw [List.replicate_succ]
  show some (List.foldl min (0 : ℚ) (List.replicate m 0)) = some 0
  rw [foldl_min_zero]

/-- Below the window limit, an immediate `acquire` succeeds and records
its timestamp. -/
lemma campaignAcquire_under (m : Nat) (h : m < 10) :
    campaignAcquire 10 (List.replicate m (0 : ℚ)) 0
      = .ok (List.replicate (m + 1) 0) := by
  unfold campaignAcquire
  simp only [prune_replicate, List.length_replicate]
  rw [if_neg (by omega), List.replicate_succ']

/-- At the window limit, `acquire` takes the sleep-and-retry branch and
never returns. -/
lemma campaignAcquire_full :
    campaignAcquire 10 (List.replicate 10 (0 : ℚ)) 0
      = .deadlock (List.replicate 10 0) := by
  unfold campaignAcquire
  simp only [prune_replicate, List.length_replicate]
  rw [if_pos (by omega)]
  have h10 : (10 : Nat) = 9 + 1 := rfl
  rw [h10, min_replicate_zero]
  show (if (0 : ℚ) < 60 - (0 - 0) then PacerOutcome.deadlock (List.replicate (9 + 1) 0)
        else PacerOutcome.ok (List.replicate (9 + 1) 0 ++ [0]))
      = PacerOutcome.deadlock (List.replicate (9 + 1) 0)
  rw [if_pos (by norm_num)]

lemma campaignRun_under :
    ∀ (n m i : Nat), m + n ≤ 10 →
      campaignRunAux 10 0 n (List.replicate m (0 : ℚ)) i
        = .allOk (List.replicate (m + n) 0) := by
  intro n
  induction n with
  | zero => intro m i _; simp [campaignRunAux]
  | succ k ih =>
    intro m i h
    rw [campaignRunAux, campaignAcquire_under m (by omega)]
    show campaignRunAux 10 0 k (List.replicate (m + 1) (0 : ℚ)) (i + 1)
        = PacerRun.allOk (List.replicate (m + (k + 1)) 0)
    rw [ih (m + 1) (i + 1) (by omega)]
    have harith : m + 1 + k = m + (k + 1) := by omega
    rw [harith]

lemma campaignRun_stuck :
    ∀ (n m i : Nat), 10 < m + n → m ≤ 10 →
      campaignRunAux 10 0 n (List.replicate m (0 : ℚ)) i
        = .stuckAt (i + (10 - m)) := by
  intro n
  induction n with
  | zero => intro m i h1 h2; omega
  | succ k ih =>
    intro m i h1 h2
    by_cases hm : m = 10
    · subst hm
      rw [campaignRunAux, campaignAcquire_full]
      simp
    · rw [campaignRunAux, campaignAcquire_under m (by omega)]
      show campaignRunAux 10 0 k (List.replicate (m + 1) (0 : ℚ)) (i + 1)
          = PacerRun.stuckAt (i + (10 - m))
      rw [ih (m + 1) (i + 1) (by omega) (by omega)]
      have : i + 1 + (10 - (m + 1)) = i + (10 - m) := by omega
      rw [this]

/-- C1: with `messages_per_minute = 10`, issuing 15 sequential
`CampaignRateLimiter.acquire` calls completes the first 10 immediately
(each returns on the no-wait path and records its timestamp), but the
11th call takes the sleep-and-retry branch, which re-acquires the
pacer's own held non-reentrant `asyncio.Lock` and therefore never
returns: the run is stuck at call index 10 and the remaining 5 calls
never complete, contrary to the claim that they complete once their
window slot frees. -/
theorem c1_campaign_pacer_eleventh_call_never_returns :
    campaignRunAux 10 0 10 [] 0 = .allOk (List.replicate 10 (0 : ℚ))
      ∧ campaignRunAux 10 0 15 [] 0 = .stuckAt 10 := by
  constructor
  · have := campaignRun_under 10 0 0 (by omega)
    simpa using this
  · have := campaignRun_stuck 15 0 0 (by omega) (by omega)
    simpa using this

/-- C4 counterexample: starting from a pending target, an empty worker
queue, no send records and zero delivery attempts, the controller's
`_send_campaign_message` (worker present) marks the target `sent` while
no delivery attempt has been made and no success `Send` record exists -
the target is marked sent before any successful delivery attempt. -/
theorem c4_counterexample_target_sent_without_delivery :
    (send_campaign_message true "u1" ⟨[], [], .pending, 0⟩).target = .sent
      ∧ (send_campaign_message true "u1" ⟨[], [], .pending, 0⟩).deliveryAttempts = 0
      ∧ (send_campaign_message true "u1" ⟨[], [], .pending, 0⟩).sends = [] := by
  exact ⟨rfl, rfl, rfl⟩

/-- C4 (amended): on a successful delivery attempt the worker's `send_dm`
appends a `Send` record with outcome `success` and never touches the
target row; the `CampaignTarget` is advanced to `sent` by the controller
at the moment the message is queued to the worker - before any delivery
attempt - so being marked sent does not imply a successful delivery. -/
theorem c4_amended_controller_marks_sent_on_enqueue
    (bot camp user : String) (s : DispatchState) :
    (send_dm bot camp user .delivered s).1 = true
      ∧ (send_dm bot camp user .delivered s).2.sends
          = s.sends ++ [⟨camp, user, bot, .success, none⟩]
      ∧ (send_dm bot camp user .delivered s).2.target = s.target
      ∧ (send_campaign_message true user s).target = .sent
      ∧ (send_campaign_message true user s).deliveryAttempts = s.deliveryAttempts
      ∧ (send_campaign_message true user s).sends = s.sends := by
  exact ⟨rfl, rfl, rfl, rfl, rfl, rfl⟩

/-- C5 counterexample: `cancel_campaign` on a campaign whose stored
status is `completed` succeeds and overwrites the status to `cancelled`
(the update filter has no status condition), and a paced execution whose
task is cancelled during the pacing sleep (here after the third
dispatch of five) breaks out of its loop and still overwrites a
`cancelled` status with `completed`. -/
theorem c5_counterexample_cancel_overwrites_terminal :
    cancel_campaign (some .completed) = (some .cancelled, true)
      ∧ execute_campaign_paced 5 (some 2) (some .cancelled)
          = (some .completed, 3) := by
  exact ⟨rfl, rfl⟩

/-- C5 (amended): terminal statuses are not absorbing. `cancel_campaign`
sets the status of any existing campaign to `cancelled` regardless of
its current status (completed included); only a missing campaign makes
it fail; and the paced execution path, whether it drains all targets or
is interrupted by cooperative cancellation during its pacing sleep,
finishes by unconditionally overwriting the stored status (cancelled
included) with `completed`. -/
theorem c5_amended_cancel_unguarded (st : CampaignStatus) (n : Nat)
    (c : Option Nat) :
    cancel_campaign (some st) = (some .cancelled, true)
      ∧ cancel_campaign none = (none, false)
      ∧ (execute_campaign_paced n c (some st)).1 = some .completed := by
  exact ⟨rfl, rfl, rfl⟩

/-- C7: for every global-cooldown state, bucket state and clock value,
`DiscordRateLimiter.acquire` returns `True`; its only other effect is
the time it sleeps (`waited`), so it never fails and never returns
`False`. -/
theorem c7_discord_acquire_always_true (g : Option ℚ) (b : RateLimitBucket)
    (now : ℚ) : (acquire g b now).ok = true := rfl

/-- C8: `start_campaign` succeeds exactly on a stored status of
`pending` (moving it to `running`) and `pause_campaign` succeeds exactly
on `running` (moving it to `paused`); in every other case the operation
reports failure and the stored status is returned unchanged. -/
theorem c8_start_pause_guards (c : Option CampaignStatus) :
    start_campaign c
        = (if c = some .pending then (some .running, true) else (c, false))
      ∧ pause_campaign c
        = (if c = some .running then (some .paused, true) else (c, false)) := by
  constructor <;>
    (cases c with
     | none => simp [start_campaign, pause_campaign]
     | some st => cases st <;> simp [start_campaign, pause_campaign])

/-- A bucket with a strictly positive `remaining` lets `acquire` through
with no sleep, decrementing `remaining`. -/
lemma acquire_no_wait (m L : Int) (ra reset now : ℚ) (hm : 0 < m) :
    acquire none ⟨m, L, ra, reset, none⟩ now
      = ⟨0, none, ⟨m - 1, L, ra, reset, none⟩, true⟩ := by
  have hnot : ¬ (m ≤ 0) := by omega
  simp [acquire, globalActive, is_rate_limited, retryActive, hnot, hm]

/-- An exhausted bucket with its reset in the future makes `acquire`
sleep until the reset, reset `remaining` to `limit`, clear `retry_after`
and then decrement. -/
lemma acquire_exhausted (L : Int) (ra reset now : ℚ) (h : now < reset)
    (hL : 0 < L) :
    acquire none ⟨0, L, ra, reset, none⟩ now
      = ⟨reset - now, none, ⟨L - 1, L, ra, reset, none⟩, true⟩ := by
  simp [acquire, globalActive, is_rate_limited, retryActive,
    time_until_reset, bucketAfterWait, h, hL]

lemma acquireRun_no_wait (L : Int) (ra reset : ℚ) :
    ∀ (k : ℕ) (m : Int) (now acc : ℚ), (k : Int) ≤ m →
      acquireRun k none ⟨m, L, ra, reset, none⟩ now acc
        = (none, ⟨m - k, L, ra, reset, none⟩, now, acc) := by
  intro k
  induction k with
  | zero => intro m now acc _; simp [acquireRun]
  | succ j ih =>
    intro m now acc h
    rw [acquireRun, acquire_no_wait m L ra reset now (by omega)]
    show acquireRun j none ⟨m - 1, L, ra, reset, none⟩ (now + 0) (acc + 0)
        = (none, ⟨m - ((j + 1 : ℕ) : Int), L, ra, reset, none⟩, now, acc)
    rw [add_zero, add_zero, ih (m - 1) now acc (by omega)]
    have harith : m - 1 - (j : Int) = m - ((j + 1 : ℕ) : Int) := by
      push_cast
      ring
    rw [harith]

/-- C3: a bucket holding `remaining = N`, `limit = N` with its reset in
the future admits `N` consecutive `acquire` calls with zero total sleep
(ending with `remaining = 0`); the `(N+1)`-th call is rate limited,
sleeps exactly until the reset time, resets `remaining` to `limit` and
clears any retry-after, then proceeds (decrementing to `N - 1`) and
returns `True`. -/
theorem c3_bucket_window (N : ℕ) (hN : 1 ≤ N) (ra reset now : ℚ)
    (h : now < reset) :
    acquireRun N none ⟨N, N, ra, reset, none⟩ now 0
        = (none, ⟨0, N, ra, reset, none⟩, now, 0)
      ∧ is_rate_limited ⟨0, N, ra, reset, none⟩ now = true
      ∧ (acquire none ⟨0, N, ra, reset, none⟩ now).waited = reset - now
      ∧ bucketAfterWait ⟨0, N, ra, reset, none⟩ = ⟨N, N, ra, reset, none⟩
      ∧ (acquire none ⟨0, N, ra, reset, none⟩ now).bucket
          = ⟨(N : Int) - 1, N, ra, reset, none⟩
      ∧ (acquire none ⟨0, N, ra, reset, none⟩ now).ok = true := by
  have hL : (0 : Int) < (N : Int) := by
    omega
  have hrun := acquireRun_no_wait (N : Int) ra reset N (N : Int) now 0 (by omega)
  have hz : (N : Int) - (N : ℕ) = 0 := by omega
  rw [hz] at hrun
  have hacq := acquire_exhausted (N : Int) ra reset now h hL
  refine ⟨hrun, ?_, ?_, rfl, ?_, ?_⟩
  · simp [is_rate_limited, retryActive, h]
  · rw [hacq]
  · rw [hacq]
  · rw [hacq]

/-- C3 witness: the theorem instantiated at `N = 2`, a bucket resetting
at time 5, and calls issued at time 1. -/
theorem c3_bucket_window_witness :
    acquireRun 2 none ⟨2, 2, 0, 5, none⟩ 1 0 = (none, ⟨0, 2, 0, 5, none⟩, 1, 0)
      ∧ is_rate_limited ⟨0, 2, 0, 5, none⟩ 1 = true
      ∧ (acquire none ⟨0, 2, 0, 5, none⟩ 1).waited = 5 - 1
      ∧ bucketAfterWait ⟨0, 2, 0, 5, none⟩ = ⟨2, 2, 0, 5, none⟩
      ∧ (acquire none ⟨0, 2, 0, 5, none⟩ 1).bucket
          = ⟨(2 : Int) - 1, 2, 0, 5, none⟩
      ∧ (acquire none ⟨0, 2, 0, 5, none⟩ 1).ok = true :=
  c3_bucket_window 2 (by norm_num) 0 5 1 (by norm_num)

/-! ## Helper lemmas about the assignment collection -/

/-- A row update that does not touch the keys or the activity flag. -/
def PreservesKey (f : AssignmentRow → AssignmentRow) : Prop :=
  ∀ r, (f r).guild_id = r.guild_id ∧ (f r).user_id = r.user_id
    ∧ (f r).is_active = r.is_active

/-- The activity predicate counted by `activeCount`. -/
def activePred (g u : String) (r : AssignmentRow) : Bool :=
  decide (r.guild_id = g) && decide (r.user_id = u) && r.is_active

lemma activeCount_eq_filter (t : List AssignmentRow) (g u : String) :
    activeCount t g u = (t.filter (activePred g u)).length := rfl

lemma activeCount_cons (r : AssignmentRow) (rs : List AssignmentRow)
    (g u : String) :
    activeCount (r :: rs) g u
      = (if activePred g u r = true then 1 else 0) + activeCount rs g u := by
  rw [activeCount_eq_filter, activeCount_eq_filter, List.filter_cons]
  by_cases hp : activePred g u r = true
  · rw [if_pos hp, if_pos hp, List.length_cons]
    omega
  · rw [if_neg hp, if_neg hp]
    omega

lemma activePred_preserved (f : AssignmentRow → AssignmentRow)
    (hf : PreservesKey f) (g u : String) (r : AssignmentRow) :
    activePred g u (f r) = activePred g u r := by
  obtain ⟨h1, h2, h3⟩ := hf r
  unfold activePred
  rw [h1, h2, h3]

lemma activeCount_map (f : AssignmentRow → AssignmentRow) (hf : PreservesKey f)
    (t : List AssignmentRow) (g u : String) :
    activeCount (t.map f) g u = activeCount t g u := by
  induction t with
  | nil => rfl
  | cons r rs ih =>
    rw [List.map_cons, activeCount_cons, activeCount_cons, ih,
      activePred_preserved f hf]

lemma activeCount_update_one (g0 u0 : String) (f : AssignmentRow → AssignmentRow)
    (hf : PreservesKey f) (t : List AssignmentRow) (g u : String) :
    activeCount (update_one_active g0 u0 f t) g u = activeCount t g u := by
  induction t with
  | nil => rfl
  | cons r rs ih =>
    unfold update_one_active
    by_cases hc : r.guild_id = g0 ∧ r.user_id = u0 ∧ r.is_active
    · rw [if_pos hc, activeCount_cons, activeCount_cons,
        activePred_preserved f hf]
    · rw [if_neg hc, activeCount_cons, activeCount_cons, ih]

lemma activePred_deactivated (g0 u0 g u : String) (r : AssignmentRow) :
    activePred g u
        (if r.guild_id = g0 ∧ r.user_id = u0 then { r with is_active := false }
         else r)
      = false ∨
    activePred g u
        (if r.guild_id = g0 ∧ r.user_id = u0 then { r with is_active := false }
         else r)
      = activePred g u r := by
  by_cases hc : r.guild_id = g0 ∧ r.user_id = u0
  · left
    rw [if_pos hc]
    simp [activePred]
  · right
    rw [if_neg hc]

lemma activeCount_deactivateAll_le (g0 u0 : String) (t : List AssignmentRow)
    (g u : String) :
    activeCount (deactivateAll g0 u0 t) g u ≤ activeCount t g u := by
  induction t with
  | nil => exact Nat.le_refl _
  | cons r rs ih =>
    unfold deactivateAll at ih ⊢
    rw [List.map_cons, activeCount_cons, activeCount_cons]
    rcases activePred_deactivated g0 u0 g u r with h | h
    · rw [h]
      have : (if False = True then 1 else 0) = 0 := by simp
      simp only [Bool.false_eq_true, if_false]
      omega
    · rw [h]
      omega

lemma activeCount_deactivateAll_self (g u : String) (t : List AssignmentRow) :
    activeCount (deactivateAll g u t) g u = 0 := by
  induction t with
  | nil => rfl
  | cons r rs ih =>
    unfold deactivateAll at ih ⊢
    rw [List.map_cons, activeCount_cons]
    by_cases hc : r.guild_id = g ∧ r.user_id = u
    · rw [if_pos hc]
      have hp : activePred g u { r with is_active := false } = false := by
        simp [activePred]
      rw [hp]
      simpa using ih
    · rw [if_neg hc]
      have hp : activePred g u r = false := by
        unfold activePred
        by_cases h1 : r.guild_id = g
        · by_cases h2 : r.user_id = u
          · exact absurd ⟨h1, h2⟩ hc
          · simp [h2]
        · simp [h1]
      rw [hp]
      simpa using ih

lemma activeCount_append_one (t : List AssignmentRow) (r : AssignmentRow)
    (g u : String) :
    activeCount (t ++ [r]) g u
      = activeCount t g u + (if activePred g u r = true then 1 else 0) := by
  rw [activeCount_eq_filter, activeCount_eq_filter, List.filter_append,
    List.length_append, List.filter_cons]
  by_cases hp : activePred g u r = true
  · rw [if_pos hp, if_pos hp]
    rfl
  · rw [if_neg hp, if_neg hp]
    rfl

lemma findFirstActive_update_one (g u : String)
    (f : AssignmentRow → AssignmentRow) (hf : PreservesKey f)
    (t : List AssignmentRow) :
    findFirstActive g u (update_one_active g u f t)
      = (findFirstActive g u t).map f := by
  induction t with
  | nil => rfl
  | cons r rs ih =>
    unfold update_one_active
    by_cases hc : r.guild_id = g ∧ r.user_id = u ∧ r.is_active
    · rw [if_pos hc]
      obtain ⟨h1, h2, h3⟩ := hf r
      have hc2 : (f r).guild_id = g ∧ (f r).user_id = u ∧ (f r).is_active := by
        rw [h1, h2, h3]
        exact hc
      unfold findFirstActive
      rw [if_pos hc2, if_pos hc]
      rfl
    · rw [if_neg hc]
      unfold findFirstActive
      rw [if_neg hc, if_neg hc]
      exact ih

lemma findFirstActive_deactivateAll (g u : String) (t : List AssignmentRow) :
    findFirstActive g u (deactivateAll g u t) = none := by
  induction t with
  | nil => rfl
  | cons r rs ih =>
    unfold deactivateAll at ih ⊢
    rw [List.map_cons]
    by_cases hc : r.guild_id = g ∧ r.user_id = u
    · rw [if_pos hc]
      unfold findFirstActive
      rw [if_neg (by simp)]
      exact ih
    · rw [if_neg hc]
      unfold findFirstActive
      rw [if_neg (fun h => hc ⟨h.1, h.2.1⟩)]
      exact ih

lemma findFirstActive_cons_neg (g u : String) (r : AssignmentRow)
    (rs : List AssignmentRow)
    (hc : ¬(r.guild_id = g ∧ r.user_id = u ∧ r.is_active)) :
    findFirstActive g u (r :: rs) = findFirstActive g u rs := by
  conv_lhs => unfold findFirstActive
  rw [if_neg hc]

lemma findFirstActive_cons_pos (g u : String) (r : AssignmentRow)
    (rs : List AssignmentRow)
    (hc : r.guild_id = g ∧ r.user_id = u ∧ r.is_active) :
    findFirstActive g u (r :: rs) = some r := by
  conv_lhs => unfold findFirstActive
  rw [if_pos hc]

lemma findFirstActive_append_of_none (g u : String) (l1 l2 : List AssignmentRow)
    (h : findFirstActive g u l1 = none) :
    findFirstActive g u (l1 ++ l2) = findFirstActive g u l2 := by
  induction l1 with
  | nil => rfl
  | cons r rs ih =>
    unfold findFirstActive at h
    by_cases hc : r.guild_id = g ∧ r.user_id = u ∧ r.is_active
    · rw [if_pos hc] at h
      cases h
    · rw [if_neg hc] at h
      rw [List.cons_append, findFirstActive_cons_neg g u r (rs ++ l2) hc]
      exact ih h

lemma foldl_min_mem (cnt : String → Nat) (b : BotInfo) (bs : List BotInfo) :
    bs.foldl (fun m x => if cnt x.bot_id < cnt m.bot_id then x else m) b
      ∈ b :: bs := by
  induction bs generalizing b with
  | nil => simp
  | cons x xs ih =>
    rw [List.foldl_cons]
    by_cases hx : cnt x.bot_id < cnt b.bot_id
    · rw [if_pos hx]
      exact List.mem_cons_of_mem b (ih x)
    · rw [if_neg hx]
      rcases List.mem_cons.mp (ih b) with h | h
      · rw [h]
        exact List.mem_cons_self b _
      · exact List.mem_cons_of_mem b (List.mem_cons_of_mem x h)

lemma minByCount_mem (cnt : String → Nat) (bots : List BotInfo) (sel : BotInfo)
    (h : minByCount cnt bots = some sel) : sel ∈ bots := by
  cases bots with
  | nil => cases h
  | cons b bs =>
    unfold minByCount at h
    injection h with h
    rw [← h]
    exact foldl_min_mem cnt b bs

lemma minByCount_isSome (cnt : String → Nat) (b : BotInfo) (bs : List BotInfo) :
    ∃ sel, minByCount cnt (b :: bs) = some sel := by
  unfold minByCount
  exact ⟨_, rfl⟩

lemma activePred_ne_pair (g0 u0 : String) (r : AssignmentRow)
    (h : ¬(r.guild_id = g0 ∧ r.user_id = u0)) :
    activePred g0 u0 r = false := by
  unfold activePred
  by_cases h1 : r.guild_id = g0
  · by_cases h2 : r.user_id = u0
    · exact absurd ⟨h1, h2⟩ h
    · simp [h2]
  · simp [h1]

lemma create_preserves_inv (fc : Bool) (k now : Nat) (g u : String)
    (bots : List BotInfo) (shuffle : List String → List String)
    (t : List AssignmentRow) (h : ∀ g0 u0, activeCount t g0 u0 ≤ 1) :
    ∀ g0 u0,
      activeCount (create_new_assignment fc k now g u bots shuffle t).2 g0 u0
        ≤ 1 := by
  intro g0 u0
  unfold create_new_assignment
  split
  · exact h g0 u0
  · split
    · exact h g0 u0
    · split
      · exact h g0 u0
      · dsimp only
        rw [activeCount_append_one]
        by_cases hp : g = g0 ∧ u = u0
        · obtain ⟨h1, h2⟩ := hp
          subst h1
          subst h2
          rw [activeCount_deactivateAll_self]
          split <;> omega
        · have hle := activeCount_deactivateAll_le g u t g0 u0
          rw [activePred_ne_pair g0 u0 _ (fun hcontra => hp ⟨hcontra.1, hcontra.2⟩)]
          simp only [Bool.false_eq_true, if_false]
          have := h g0 u0
          omega

lemma getOrCreate_preserves_inv (fm fc : Bool) (k now : Nat) (g u : String)
    (bots : List BotInfo) (shuffle : List String → List String)
    (t : List AssignmentRow) (h : ∀ g0 u0, activeCount t g0 u0 ≤ 1) :
    ∀ g0 u0,
      activeCount (get_or_create_assignment fm fc k now g u bots shuffle t).2
        g0 u0 ≤ 1 := by
  intro g0 u0
  unfold get_or_create_assignment
  split
  · exact h g0 u0
  · split
    · split
      · dsimp only
        rw [activeCount_update_one g u
          (fun r => { r with last_dm_at := now, updated_at := now })
          (fun r => ⟨rfl, rfl, rfl⟩) t g0 u0]
        exact h g0 u0
      · split
        next fb hfb =>
          dsimp only
          rw [activeCount_update_one g u
            (fun r =>
              { r with assigned_bot_id := fb, last_dm_at := now,
                       updated_at := now, assignment_reason := "fallback_used",
                       total_dms_sent := r.total_dms_sent + 1 })
            (fun r => ⟨rfl, rfl, rfl⟩) t g0 u0]
          exact h g0 u0
        next => exact create_preserves_inv fc k now g u bots shuffle t h g0 u0
    · exact create_preserves_inv fc k now g u bots shuffle t h g0 u0

lemma applyOp_preserves_inv (op : AssignOp) (t : List AssignmentRow)
    (h : ∀ g0 u0, activeCount t g0 u0 ≤ 1) :
    ∀ g0 u0, activeCount (applyOp op t) g0 u0 ≤ 1 := by
  intro g0 u0
  cases op with
  | getOrCreate fm fc k now g u bots shuffle =>
    exact getOrCreate_preserves_inv fm fc k now g u bots shuffle t h g0 u0
  | reassign now oldBot newBot g =>
    show activeCount (reassign_bot_members now oldBot newBot g t).1 g0 u0 ≤ 1
    unfold reassign_bot_members
    dsimp only
    rw [activeCount_map _ ?pk t g0 u0]
    case pk =>
      intro r
      dsimp only
      by_cases hc : r.guild_id = g ∧ r.assigned_bot_id = oldBot ∧ r.is_active
      · rw [if_pos hc]
        exact ⟨rfl, rfl, rfl⟩
      · rw [if_neg hc]
        exact ⟨rfl, rfl, rfl⟩
    exact h g0 u0
  | deactivateOnly g u =>
    calc activeCount (deactivateAll g u t) g0 u0
        ≤ activeCount t g0 u0 := activeCount_deactivateAll_le g u t g0 u0
      _ ≤ 1 := h g0 u0

/-- C2: starting from an empty assignment collection, after any
sequence of `get_or_create_assignment` operations (including
failure-injected runs and the transient deactivate-without-insert state
of an interrupted supersession) and `reassign_bot_members` operations,
every `(guild, member)` pair has at most one row with
`is_active = true`. -/
theorem c2_active_assignment_invariant (ops : List AssignOp) (g u : String) :
    activeCount (applyOps ops []) g u ≤ 1 := by
  have main : ∀ (ops2 : List AssignOp) (t : List AssignmentRow),
      (∀ g0 u0, activeCount t g0 u0 ≤ 1) →
      ∀ g0 u0, activeCount (applyOps ops2 t) g0 u0 ≤ 1 := by
    intro ops2
    induction ops2 with
    | nil => intro t ht; exact ht
    | cons op rest ih =>
      intro t ht
      show ∀ g0 u0, activeCount (applyOps rest (applyOp op t)) g0 u0 ≤ 1
      exact ih (applyOp op t) (applyOp_preserves_inv op t ht)
  exact main ops [] (fun g0 u0 => by simp [activeCount]) g u

/-- C6: when the first active assignment row's primary bot is not among
the available bots but some stored fallback is, `get_or_create_assignment`
returns the first such fallback (in stored order) and persists it as the
row's new `assigned_bot_id`, incrementing `total_dms_sent` by one. -/
theorem c6_fallback_promotion (k now : Nat) (g u fb : String)
    (bots : List BotInfo) (shuffle : List String → List String)
    (t : List AssignmentRow) (row : AssignmentRow)
    (hfind : findFirstActive g u t = some row)
    (hprim : (botIds bots).contains row.assigned_bot_id = false)
    (hfb : row.fallback_bot_ids.find? (fun x => (botIds bots).contains x)
        = some fb) :
    (get_or_create_assignment false false k now g u bots shuffle t).1 = some fb
      ∧ ∃ row2,
          findFirstActive g u
              (get_or_create_assignment false false k now g u bots shuffle t).2
            = some row2
          ∧ row2.assigned_bot_id = fb
          ∧ row2.total_dms_sent = row.total_dms_sent + 1 := by
  have hred : get_or_create_assignment false false k now g u bots shuffle t
      = (some fb,
         update_one_active g u
           (fun r =>
             { r with assigned_bot_id := fb, last_dm_at := now,
                      updated_at := now, assignment_reason := "fallback_used",
                      total_dms_sent := r.total_dms_sent + 1 }) t) := by
    simp only [get_or_create_assignment, hfind, hprim, hfb,
      Bool.false_eq_true, if_false]
  rw [hred]
  refine ⟨rfl, ?_⟩
  rw [findFirstActive_update_one g u
    (fun r =>
      { r with assigned_bot_id := fb, last_dm_at := now,
               updated_at := now, assignment_reason := "fallback_used",
               total_dms_sent := r.total_dms_sent + 1 })
    (fun r => ⟨rfl, rfl, rfl⟩) t, hfind]
  exact ⟨_, rfl, rfl, rfl⟩

/-- C6 witness: one active row for the pair whose primary bot is gone,
whose fallback list is scanned in stored order, with the second entry
still available. -/
theorem c6_fallback_promotion_witness :
    (get_or_create_assignment false false 0 7 "g" "u" [⟨"b2"⟩] id
        [⟨"g", "u", "b1", ["b3", "b2"], true, 5, "new_assignment", 0, 0⟩]).1
      = some "b2"
      ∧ ∃ row2,
          findFirstActive "g" "u"
              (get_or_create_assignment false false 0 7 "g" "u" [⟨"b2"⟩] id
                [⟨"g", "u", "b1", ["b3", "b2"], true, 5, "new_assignment", 0, 0⟩]).2
            = some row2
          ∧ row2.assigned_bot_id = "b2"
          ∧ row2.total_dms_sent = 5 + 1 :=
  c6_fallback_promotion 0 7 "g" "u" "b2" [⟨"b2"⟩] id
    [⟨"g", "u", "b1", ["b3", "b2"], true, 5, "new_assignment", 0, 0⟩]
    ⟨"g", "u", "b1", ["b3", "b2"], true, 5, "new_assignment", 0, 0⟩
    (by decide) (by decide) (by decide)

lemma second_resolve_after_create (k2 now2 k now : Nat) (g u : String)
    (bots : List BotInfo) (shuffle shuffle2 : List String → List String)
    (t : List AssignmentRow) (hne : bots ≠ []) :
    (get_or_create_assignment false false k2 now2 g u bots shuffle2
        (create_new_assignment false k now g u bots shuffle t).2).1
      = (create_new_assignment false k now g u bots shuffle t).1 := by
  obtain ⟨b, bs, rfl⟩ : ∃ b bs, bots = b :: bs := by
    cases bots with
    | nil => exact absurd rfl hne
    | cons b bs => exact ⟨b, bs, rfl⟩
  obtain ⟨sel, hsel⟩ := minByCount_isSome (countActiveBot t g) b bs
  have hCreate : create_new_assignment false k now g u (b :: bs) shuffle t
      = (some sel.bot_id,
         deactivateAll g u t ++
           [{ guild_id := g, user_id := u, assigned_bot_id := sel.bot_id,
              fallback_bot_ids :=
                (shuffle ((botIds (b :: bs)).filter (fun x => x ≠ sel.bot_id))).take 3,
              is_active := true, total_dms_sent := 1,
              assignment_reason := "new_assignment",
              last_dm_at := now, updated_at := now }]) := by
    simp only [create_new_assignment, List.isEmpty_cons, Bool.false_eq_true,
      if_false, hsel]
  rw [hCreate]
  have hrow : findFirstActive g u
      (deactivateAll g u t ++
        [{ guild_id := g, user_id := u, assigned_bot_id := sel.bot_id,
           fallback_bot_ids :=
             (shuffle ((botIds (b :: bs)).filter (fun x => x ≠ sel.bot_id))).take 3,
           is_active := true, total_dms_sent := 1,
           assignment_reason := "new_assignment",
           last_dm_at := now, updated_at := now }])
      = some { guild_id := g, user_id := u, assigned_bot_id := sel.bot_id,
               fallback_bot_ids :=
                 (shuffle ((botIds (b :: bs)).filter (fun x => x ≠ sel.bot_id))).take 3,
               is_active := true, total_dms_sent := 1,
               assignment_reason := "new_assignment",
               last_dm_at := now, updated_at := now } := by
    rw [findFirstActive_append_of_none g u _ _
      (findFirstActive_deactivateAll g u t)]
    exact findFirstActive_cons_pos g u _ [] ⟨rfl, rfl, rfl⟩
  have hmem : (botIds (b :: bs)).contains sel.bot_id = true := by
    have hsmem : sel ∈ b :: bs := minByCount_mem _ _ _ hsel
    have : sel.bot_id ∈ botIds (b :: bs) := by
      simpa [botIds] using List.mem_map_of_mem BotInfo.bot_id hsmem
    simpa using this
  simp only [get_or_create_assignment, Bool.false_eq_true, if_false, hrow, hmem,
    if_true]

/-- C9: two immediately consecutive `get_or_create_assignment` calls for
the same `(guild, member)` pair against the same non-empty
`available_bots` list, with no interleaved operations and no injected
failure, return the same bot id (whatever the clock values and the
shuffle used for fallback randomization). -/
theorem c9_resolve_idempotent (k1 k2 now1 now2 : Nat) (g u : String)
    (bots : List BotInfo) (shuffle1 shuffle2 : List String → List String)
    (t : List AssignmentRow) (hne : bots ≠ []) :
    (get_or_create_assignment false false k2 now2 g u bots shuffle2
        (get_or_create_assignment false false k1 now1 g u bots shuffle1 t).2).1
      = (get_or_create_assignment false false k1 now1 g u bots shuffle1 t).1 := by
  cases hf : findFirstActive g u t with
  | none =>
    have h1 : get_or_create_assignment false false k1 now1 g u bots shuffle1 t
        = create_new_assignment false k1 now1 g u bots shuffle1 t := by
      simp only [get_or_create_assignment, Bool.false_eq_true, if_false, hf]
    rw [h1]
    exact second_resolve_after_create k2 now2 k1 now1 g u bots shuffle1 shuffle2
      t hne
  | some row =>
    cases hc : (botIds bots).contains row.assigned_bot_id with
    | true =>
      have h1 : get_or_create_assignment false false k1 now1 g u bots shuffle1 t
          = (some row.assigned_bot_id,
             update_one_active g u
               (fun r => { r with last_dm_at := now1, updated_at := now1 }) t) := by
        simp only [get_or_create_assignment, Bool.false_eq_true, if_false, hf,
          hc, if_true]
      rw [h1]
      have hrow2 : findFirstActive g u
          (update_one_active g u
            (fun r => { r with last_dm_at := now1, updated_at := now1 }) t)
          = some { row with last_dm_at := now1, updated_at := now1 } := by
        rw [findFirstActive_update_one g u
          (fun r => { r with last_dm_at := now1, updated_at := now1 })
          (fun r => ⟨rfl, rfl, rfl⟩) t, hf]
        rfl
      simp only [get_or_create_assignment, Bool.false_eq_true, if_false, hrow2,
        hc, if_true]
    | false =>
      cases hfb : row.fallback_bot_ids.find? (fun x => (botIds bots).contains x)
        with
      | some fb =>
        have hcontains : (botIds bots).contains fb = true :=
          List.find?_some hfb
        have h1 : get_or_create_assignment false false k1 now1 g u bots shuffle1
            t
            = (some fb,
               update_one_active g u
                 (fun r =>
                   { r with assigned_bot_id := fb, last_dm_at := now1,
                            updated_at := now1,
                            assignment_reason := "fallback_used",
                            total_dms_sent := r.total_dms_sent + 1 }) t) := by
          simp only [get_or_create_assignment, Bool.false_eq_true, if_false, hf,
            hc, hfb]
        rw [h1]
        have hrow2 : findFirstActive g u
            (update_one_active g u
              (fun r =>
                { r with assigned_bot_id := fb, last_dm_at := now1,
                         updated_at := now1,
                         assignment_reason := "fallback_used",
                         total_dms_sent := r.total_dms_sent + 1 }) t)
            = some { row with assigned_bot_id := fb, last_dm_at := now1,
                              updated_at := now1,
                              assignment_reason := "fallback_used",
                              total_dms_sent := row.total_dms_sent + 1 } := by
          rw [findFirstActive_update_one g u
            (fun r =>
              { r with assigned_bot_id := fb, last_dm_at := now1,
                       updated_at := now1,
                       assignment_reason := "fallback_used",
                       total_dms_sent := r.total_dms_sent + 1 })
            (fun r => ⟨rfl, rfl, rfl⟩) t, hf]
          rfl
        simp only [get_or_create_assignment, Bool.false_eq_true, if_false,
          hrow2, hcontains, if_true]
      | none =>
        have h1 : get_or_create_assignment false false k1 now1 g u bots shuffle1
            t
            = create_new_assignment false k1 now1 g u bots shuffle1 t := by
          simp only [get_or_create_assignment, Bool.false_eq_true, if_false, hf,
            hc, hfb]
        rw [h1]
        exact second_resolve_after_create k2 now2 k1 now1 g u bots shuffle1
          shuffle2 t hne

/-- C9 witness: two consecutive resolutions for a fresh pair against two
available bots return the same bot id. -/
theorem c9_resolve_idempotent_witness :
    (get_or_create_assignment false false 0 1 "g" "u" [⟨"b1"⟩, ⟨"b2"⟩] id
        (get_or_create_assignment false false 0 0 "g" "u" [⟨"b1"⟩, ⟨"b2"⟩] id
          []).2).1
      = (get_or_create_assignment false false 0 0 "g" "u" [⟨"b1"⟩, ⟨"b2"⟩] id
          []).1 :=
  c9_resolve_idempotent 0 0 0 1 "g" "u" [⟨"b1"⟩, ⟨"b2"⟩] id id [] (by decide)

lemma create_result_spec (fc : Bool) (k now : Nat) (g u : String)
    (bots : List BotInfo) (shuffle : List String → List String)
    (t : List AssignmentRow) :
    ((create_new_assignment fc k now g u bots shuffle t).1 = none ↔ bots = [])
      ∧ ∀ b0, (create_new_assignment fc k now g u bots shuffle t).1 = some b0
          → b0 ∈ botIds bots := by
  cases bots with
  | nil =>
    constructor
    · simp [create_new_assignment]
    · intro b0 h
      simp [create_new_assignment] at h
  | cons b bs =>
    cases fc with
    | true =>
      have hlen : 0 < (b :: bs).length := by simp
      have hm : k % (b :: bs).length < (b :: bs).length := Nat.mod_lt _ hlen
      have hget : (b :: bs).get? (k % (b :: bs).length)
          = some ((b :: bs).get ⟨k % (b :: bs).length, hm⟩) :=
        List.get?_eq_get hm
      have hred : (create_new_assignment true k now g u (b :: bs) shuffle t).1
          = some ((b :: bs).get ⟨k % (b :: bs).length, hm⟩).bot_id := by
        simp only [create_new_assignment, List.isEmpty_cons, Bool.false_eq_true,
          if_false, if_true, hget]
        rfl
      constructor
      · rw [hred]
        simp
      · intro b0 h
        rw [hred] at h
        injection h with h
        rw [← h]
        exact List.mem_map_of_mem BotInfo.bot_id (List.get_mem _ _ _)
    | false =>
      obtain ⟨sel, hsel⟩ := minByCount_isSome (countActiveBot t g) b bs
      have hred : (create_new_assignment false k now g u (b :: bs) shuffle t).1
          = some sel.bot_id := by
        simp only [create_new_assignment, List.isEmpty_cons, Bool.false_eq_true,
          if_false, hsel]
      constructor
      · rw [hred]
        simp
      · intro b0 h
        rw [hred] at h
        injection h with h
        rw [← h]
        exact List.mem_map_of_mem BotInfo.bot_id (minByCount_mem _ _ _ hsel)

/-- C10: `get_or_create_assignment` is total (every code path, including
both failure-injected ones, produces a value rather than an exception),
returns `none` exactly when `available_bots` is empty, and whenever
`available_bots` is non-empty the returned id belongs to one of the
available bots. -/
theorem c10_resolve_never_fails (failMain failCreate : Bool) (k now : Nat)
    (g u : String) (bots : List BotInfo)
    (shuffle : List String → List String) (t : List AssignmentRow) :
    ((get_or_create_assignment failMain failCreate k now g u bots shuffle t).1
        = none ↔ bots = [])
      ∧ ∀ b0,
          (get_or_create_assignment failMain failCreate k now g u bots shuffle
              t).1
            = some b0 → b0 ∈ botIds bots := by
  cases failMain with
  | true =>
    cases bots with
    | nil =>
      constructor
      · simp [get_or_create_assignment]
      · intro b0 h
        simp [get_or_create_assignment] at h
    | cons b bs =>
      have hred : (get_or_create_assignment true failCreate k now g u (b :: bs)
          shuffle t).1 = some b.bot_id := by
        simp [get_or_create_assignment]
      constructor
      · rw [hred]
        simp
      · intro b0 h
        rw [hred] at h
        injection h with h
        rw [← h]
        exact List.mem_map_of_mem BotInfo.bot_id (List.mem_cons_self b bs)
  | false =>
    cases hf : findFirstActive g u t with
    | none =>
      have hred : get_or_create_assignment false failCreate k now g u bots
          shuffle t = create_new_assignment failCreate k now g u bots shuffle
          t := by
        simp only [get_or_create_assignment, Bool.false_eq_true, if_false, hf]
      rw [hred]
      exact create_result_spec failCreate k now g u bots shuffle t
    | some row =>
      cases hc : (botIds bots).contains row.assigned_bot_id with
      | true =>
        have hmem : row.assigned_bot_id ∈ botIds bots := by
          simpa using hc
        have hne : bots ≠ [] := by
          intro hnil
          subst hnil
          simp [botIds] at hmem
        have hred : (get_or_create_assignment false failCreate k now g u bots
            shuffle t).1 = some row.assigned_bot_id := by
          simp only [get_or_create_assignment, Bool.false_eq_true, if_false, hf,
            hc, if_true]
        constructor
        · rw [hred]
          simp [hne]
        · intro b0 h
          rw [hred] at h
          injection h with h
          rw [← h]
          exact hmem
      | false =>
        cases hfb : row.fallback_bot_ids.find?
            (fun x => (botIds bots).contains x) with
        | some fb =>
          have hcontains : (botIds bots).contains fb = true :=
            List.find?_some hfb
          have hmem : fb ∈ botIds bots := by
            simpa using hcontains
          have hne : bots ≠ [] := by
            intro hnil
            subst hnil
            simp [botIds] at hmem
          have hred : (get_or_create_assignment false failCreate k now g u bots
              shuffle t).1 = some fb := by
            simp only [get_or_create_assignment, Bool.false_eq_true, if_false,
              hf, hc, hfb]
          constructor
          · rw [hred]
            simp [hne]
          · intro b0 h
            rw [hred] at h
            injection h with h
            rw [← h]
            exact hmem
        | none =>
          have hred : get_or_create_assignment false failCreate k now g u bots
              shuffle t
              = create_new_assignment failCreate k now g u bots shuffle t := by
            simp only [get_or_create_assignment, Bool.false_eq_true, if_false,
              hf, hc, hfb]
          rw [hred]
          exact create_result_spec failCreate k now g u bots shuffle t

/-- C10 witness: one available bot, fresh pair - the resolution returns
that bot's id, which is among the available ids. -/
theorem c10_resolve_never_fails_witness :
    "b1" ∈ botIds [⟨"b1"⟩] :=
  (c10_resolve_never_fails false false 0 0 "g" "u" [⟨"b1"⟩] id []).2 "b1"
    (by decide)
